import Mathlib

/-!
Verification of the boardgames-analyzer data-collection pipeline.

The development shallowly embeds the Python sources:
`bgg_api_client.py` (retrying HTTP fetch, XML lookup operations),
`data_retriever.py` (batch retrieval and JSON persistence) and
`data_preprocessor.py` (text cleaning and tokenization).
External collaborators (the HTTP transport, the XML parser of the standard
library, the NLTK tokenizer) are passed as explicit function parameters;
the CPython `json` serializer for the dataset shapes the program writes is
embedded character by character.
-/

namespace BoardGames

/-! ### Python character primitives -/

/-- Whitespace as matched by Python's regex class `\s` on `str` input:
ASCII whitespace together with the Unicode whitespace code points. -/
def pyIsSpace (c : Char) : Bool :=
  decide ((9 ≤ c.toNat ∧ c.toNat ≤ 13) ∨ c.toNat = 32 ∨ (28 ≤ c.toNat ∧ c.toNat ≤ 31) ∨
    c.toNat = 133 ∨ c.toNat = 160 ∨ c.toNat = 5760 ∨
    (8192 ≤ c.toNat ∧ c.toNat ≤ 8202) ∨ c.toNat = 8232 ∨ c.toNat = 8233 ∨
    c.toNat = 8239 ∨ c.toNat = 8287 ∨ c.toNat = 12288)

/-- ASCII letters, the regex class `[a-zA-Z]`. -/
def isAsciiLetter (c : Char) : Bool :=
  decide ((97 ≤ c.toNat ∧ c.toNat ≤ 122) ∨ (65 ≤ c.toNat ∧ c.toNat ≤ 90))

/-- Lowercasing of one character, `str.lower` on the basic latin range. -/
def pyToLower (c : Char) : Char :=
  if 65 ≤ c.toNat ∧ c.toNat ≤ 90 then Char.ofNat (c.toNat + 32) else c

/-! ### `data_preprocessor.py` -/

/-- `DataPreprocessor.clean_text`: `text.lower()` followed by
`re.sub(r'[^a-zA-Z\s]', '', text)` — lowercase, then delete every character
that is neither an ASCII letter nor whitespace. -/
def clean_text (text : String) : String :=
  String.mk ((text.data.map pyToLower).filter (fun c => isAsciiLetter c || pyIsSpace c))

/-- `DataPreprocessor.tokenize`: the injected NLTK `word_tokenize` (which may
fail) followed by removal of stopword tokens; a tokenizer failure is caught
and yields the empty list. -/
def tokenize (word_tokenize : String → Except String (List String))
    (stop_words : List String) (text : String) : List String :=
  match word_tokenize text with
  | Except.ok toks => toks.filter (fun t => !(stop_words.contains t))
  | Except.error _ => []

/-- One raw comment record as produced by `BGGDataClient.get_game_comments`:
the `username`, `rating` and `value` attributes, each possibly absent. -/
structure Comment where
  username : Option String
  rating : Option String
  value : Option String
deriving DecidableEq

/-- A comment record after preprocessing: the original fields plus the
`clean_text` and `tokens` keys added by `preprocess_dataset`. -/
structure PreprocessedComment where
  username : Option String
  rating : Option String
  value : Option String
  clean_text : String
  tokens : List String
deriving DecidableEq

/-- Body of the inner loop of `DataPreprocessor.preprocess_dataset`:
`comment.copy()` followed by writing the `clean_text` and `tokens` keys.
Reading `comment['value']` when the value is absent or `None` raises
(`KeyError`, or `AttributeError` from `None.lower()`), modelled as an error
result. -/
def preprocess_comment (word_tokenize : String → Except String (List String))
    (stop_words : List String) (c : Comment) : Except String PreprocessedComment :=
  match c.value with
  | some v =>
      Except.ok { username := c.username, rating := c.rating, value := some v,
                  clean_text := clean_text v,
                  tokens := tokenize word_tokenize stop_words (clean_text v) }
  | none => Except.error "AttributeError"

/-- Inner loop of `DataPreprocessor.preprocess_dataset`: the comments of one
game in order; a raised exception aborts and propagates. -/
def preprocess_comments (word_tokenize : String → Except String (List String))
    (stop_words : List String) : List Comment → Except String (List PreprocessedComment)
  | [] => Except.ok []
  | c :: cs =>
      match preprocess_comment word_tokenize stop_words c with
      | Except.error e => Except.error e
      | Except.ok pc =>
          match preprocess_comments word_tokenize stop_words cs with
          | Except.error e => Except.error e
          | Except.ok pcs => Except.ok (pc :: pcs)

/-- `DataPreprocessor.preprocess_dataset`: for each game in order, preprocess
its comments in order; a raised exception aborts and propagates. -/
def preprocess_dataset (word_tokenize : String → Except String (List String))
    (stop_words : List String) :
    List (String × List Comment) → Except String (List (String × List PreprocessedComment))
  | [] => Except.ok []
  | p :: ps =>
      match preprocess_comments word_tokenize stop_words p.2 with
      | Except.error e => Except.error e
      | Except.ok pcs =>
          match preprocess_dataset word_tokenize stop_words ps with
          | Except.error e => Except.error e
          | Except.ok rest => Except.ok ((p.1, pcs) :: rest)

/-! ### `DataRetriever._sanitize_filename` -/

/-- `DataRetriever._sanitize_filename`: each character for which the
runtime's `str.isalnum` is false and that is not one of `.`, `_`, `-`
becomes `_`; all others pass through unchanged. Python's `str.isalnum` is
Unicode-aware, so like the other standard-library collaborators it is
injected as a parameter; on the ASCII range it coincides with the ASCII
alphanumeric test, which the theorems below assume and the witnesses
instantiate. -/
def sanitize_filename (isalnum : Char → Bool) (name : String) : String :=
  String.mk (name.data.map (fun c =>
    if isalnum c || (c = '.' || c = '_' || c = '-') then c else '_'))

/-! ### `bgg_api_client.py`: the retrying fetch -/

/-- Outcome of `BGGDataClient._safe_api_call`: a successful response body, a
raised (re-raised) transport failure, or the implicit `None` returned when the
loop body never runs (`max_retries = 0`). -/
inductive CallResult where
  | success : String → CallResult
  | failure : String → CallResult
  | fellThrough : CallResult
deriving DecidableEq

/-- Loop of `BGGDataClient._safe_api_call` from a given 0-based attempt index.
The transport is the injected `fetch`, mapping the attempt index to the result
of `requests.get` + `raise_for_status` (a body, or a raised
`requests.RequestException`). Besides the outcome it records, purely for
specification, the `time.sleep` durations in order and the 1-based attempt
numbers used. -/
def safe_api_call_from (fetch : Nat → Except String String)
    (max_retries retry_delay attempt : Nat) : CallResult × List Nat × List Nat :=
  if h : attempt < max_retries then
    match fetch attempt with
    | Except.ok s => (CallResult.success s, [], [attempt + 1])
    | Except.error e =>
        if attempt < max_retries - 1 then
          let r := safe_api_call_from fetch max_retries retry_delay (attempt + 1)
          (r.1, retry_delay * (attempt + 1) :: r.2.1, (attempt + 1) :: r.2.2)
        else (CallResult.failure e, [], [attempt + 1])
  else (CallResult.fellThrough, [], [])
termination_by max_retries - attempt
decreasing_by omega

/-- `BGGDataClient._safe_api_call` (loop started at attempt 0). -/
def safe_api_call (fetch : Nat → Except String String)
    (max_retries retry_delay : Nat) : CallResult × List Nat × List Nat :=
  safe_api_call_from fetch max_retries retry_delay 0

/-! ### `bgg_api_client.py`: XML documents and lookups -/

/-- An XML element as navigated by `xml.etree.ElementTree`: tag, attributes,
child elements in document order, and text content. -/
inductive Xml where
  | elem (tag : String) (attrs : List (String × String)) (children : List Xml)
      (content : Option String)

/-- Tag of an element. -/
def Xml.tag : Xml → String
  | .elem t _ _ _ => t

/-- Child elements, in document order. -/
def Xml.children : Xml → List Xml
  | .elem _ _ cs _ => cs

/-- Attribute lookup, `Element.get`. -/
def Xml.get : Xml → String → Option String
  | .elem _ as _ _, k => (as.find? (fun p => p.1 == k)).map Prod.snd

/-- Text content, `Element.text`. -/
def Xml.content : Xml → Option String
  | .elem _ _ _ t => t

/-- `Element.find`: the first direct child with the given tag. -/
def Xml.find (x : Xml) (t : String) : Option Xml :=
  x.children.find? (fun c => c.tag == t)

/-- `Element.findall(".//tag")`: every descendant with the given tag, in
document order (a matching child precedes its own matching descendants). -/
def Xml.findallDesc (t : String) : Xml → List Xml
  | .elem _ _ cs _ =>
      cs.attach.flatMap (fun c =>
        (if c.1.tag = t then [c.1] else []) ++ Xml.findallDesc t c.1)
decreasing_by
  have := List.sizeOf_lt_of_mem c.2
  simp only [Xml.elem.sizeOf_spec]
  omega

/-- Value of a run of decimal digit characters. -/
def pyDigitsVal (ds : List Char) : Nat :=
  ds.foldl (fun n c => n * 10 + (c.toNat - 48)) 0

/-- Python's `int(str)` on its decimal fragment: an optional sign followed by
a nonempty digit run; anything else raises `ValueError`, modelled as `none`. -/
def pyInt? (s : String) : Option Int :=
  match s.data with
  | '-' :: ds => if ds ≠ [] ∧ ds.all Char.isDigit then some (-(pyDigitsVal ds : Int)) else none
  | '+' :: ds => if ds ≠ [] ∧ ds.all Char.isDigit then some ((pyDigitsVal ds : Int)) else none
  | ds => if ds ≠ [] ∧ ds.all Char.isDigit then some ((pyDigitsVal ds : Int)) else none

/-- `BGGDataClient._parse_xml`: delegate to the (injected) `ET.fromstring`;
a `ParseError` is logged and re-raised unchanged. -/
def parse_xml (fromstring : String → Except String Xml) (xml_string : String) :
    Except String Xml :=
  fromstring xml_string

/-- `BGGDataClient.get_game_id`: fetch the search endpoint, parse, take the
first `item` child's `id` attribute as an integer. All raised failures
(transport exhaustion, parse error, missing or non-numeric attribute) are
caught and become `none`. -/
def get_game_id (fetch : Nat → Except String String) (max_retries retry_delay : Nat)
    (fromstring : String → Except String Xml) (game_name : String) : Option Int :=
  match (safe_api_call fetch max_retries retry_delay).1 with
  | CallResult.success xml_data =>
      match parse_xml fromstring xml_data with
      | Except.ok root =>
          match root.find "item" with
          | some game => (game.get "id").bind pyInt?
          | none => none
      | Except.error _ => none
  | _ => none

/-- Game details extracted by `BGGDataClient.get_game_info`; each field other
than the echoed id tolerates absence. -/
structure GameInfo where
  id : Int
  name : Option String
  year : Option String
  description : Option String
deriving DecidableEq

/-- `BGGDataClient.get_game_info`: fetch the thing endpoint, parse, extract
name/year/description from optional children of the first `item`; all raised
failures are caught and become `none`. -/
def get_game_info (fetch : Nat → Except String String) (max_retries retry_delay : Nat)
    (fromstring : String → Except String Xml) (game_id : Int) : Option GameInfo :=
  match (safe_api_call fetch max_retries retry_delay).1 with
  | CallResult.success xml_data =>
      match parse_xml fromstring xml_data with
      | Except.ok root =>
          match root.find "item" with
          | some item =>
              some { id := game_id,
                     name := (item.find "name").bind (fun e => e.get "value"),
                     year := (item.find "yearpublished").bind (fun e => e.get "value"),
                     description := (item.find "description").bind (fun e => e.content) }
          | none => none
      | Except.error _ => none
  | _ => none

/-- `BGGDataClient.get_game_comments`: fetch the thing endpoint with comment
flags, parse, extract every `comment` descendant's attributes in document
order; all raised failures are caught and become the empty list. -/
def get_game_comments (fetch : Nat → Except String String) (max_retries retry_delay : Nat)
    (fromstring : String → Except String Xml) (game_id : Int) (max_comments : Nat) :
    List Comment :=
  match (safe_api_call fetch max_retries retry_delay).1 with
  | CallResult.success xml_data =>
      match parse_xml fromstring xml_data with
      | Except.ok root =>
          (Xml.findallDesc "comment" root).map (fun c =>
            { username := c.get "username", rating := c.get "rating", value := c.get "value" })
      | Except.error _ => []
  | _ => []

/-! ### JSON documents and CPython's `json.dump(..., ensure_ascii=False, indent=2)` -/

/-- A JSON document of the shapes this program writes and reads back:
null, strings, arrays and objects (an object is its members in order). -/
inductive Json where
  | null : Json
  | str : String → Json
  | arr : List Json → Json
  | obj : List (String × Json) → Json

/-- Lower-case hex digit. -/
def hexDig (n : Nat) : Char :=
  if n < 10 then Char.ofNat (48 + n) else Char.ofNat (87 + n)

/-- JSON escape of one character as CPython's `json` writes it with
`ensure_ascii=False`: backslash, quote and the C escapes are escaped, other
control characters become a `\u00` sequence, everything else — non-ASCII
included — is verbatim. -/
def escChar (c : Char) : List Char :=
  if c = '"' then ['\\', '"']
  else if c = '\\' then ['\\', '\\']
  else if c = '\n' then ['\\', 'n']
  else if c = '\r' then ['\\', 'r']
  else if c = '\t' then ['\\', 't']
  else if c.toNat = 8 then ['\\', 'b']
  else if c.toNat = 12 then ['\\', 'f']
  else if c.toNat < 32 then ['\\', 'u', '0', '0', hexDig (c.toNat / 16), hexDig (c.toNat % 16)]
  else [c]

/-- A JSON string literal: quote, escaped characters, quote. -/
def dumpStr (s : String) : List Char :=
  '"' :: (s.data.flatMap escChar ++ ['"'])

/-- Newline plus the indentation of `indent=2` at a nesting level. -/
def nlInd (lvl : Nat) : List Char :=
  '\n' :: List.replicate (2 * lvl) ' '

mutual

/-- Serialization of a value at a nesting level, mirroring CPython
`json.dump` with `ensure_ascii=False, indent=2` (separators `,` and `: `;
empty containers stay on one line). -/
def dumpVal (lvl : Nat) : Json → List Char
  | Json.null => ['n', 'u', 'l', 'l']
  | Json.str s => dumpStr s
  | Json.arr [] => ['[', ']']
  | Json.arr (x :: xs) =>
      '[' :: (nlInd (lvl + 1) ++ dumpVal (lvl + 1) x ++ dumpArrTail (lvl + 1) xs ++
        nlInd lvl ++ [']'])
  | Json.obj [] => ['{', '}']
  | Json.obj (m :: ms) =>
      '{' :: (nlInd (lvl + 1) ++ dumpMember (lvl + 1) m ++ dumpObjTail (lvl + 1) ms ++
        nlInd lvl ++ ['}'])

/-- One `"key": value` member. -/
def dumpMember (lvl : Nat) : String × Json → List Char
  | (k, v) => dumpStr k ++ ':' :: ' ' :: dumpVal lvl v

/-- Remaining array elements, each preceded by a comma and a fresh line. -/
def dumpArrTail (lvl : Nat) : List Json → List Char
  | [] => []
  | x :: xs => ',' :: (nlInd lvl ++ dumpVal lvl x ++ dumpArrTail lvl xs)

/-- Remaining object members, each preceded by a comma and a fresh line. -/
def dumpObjTail (lvl : Nat) : List (String × Json) → List Char
  | [] => []
  | m :: ms => ',' :: (nlInd lvl ++ dumpMember lvl m ++ dumpObjTail lvl ms)

end

/-- Full file content produced by `json.dump(value, f, ensure_ascii=False,
indent=2)`. -/
def json_dumps (j : Json) : String := String.mk (dumpVal 0 j)

/-! ### The `json.load` side -/

/-- JSON inter-token whitespace. -/
def jsonWs (c : Char) : Bool := c = ' ' || c = '\t' || c = '\n' || c = '\r'

/-- Drop leading JSON whitespace. -/
def dropWs : List Char → List Char
  | c :: cs => if jsonWs c then dropWs cs else c :: cs
  | [] => []

/-- Hex digit value. -/
def hexVal? (c : Char) : Option Nat :=
  if 48 ≤ c.toNat ∧ c.toNat ≤ 57 then some (c.toNat - 48)
  else if 97 ≤ c.toNat ∧ c.toNat ≤ 102 then some (c.toNat - 87)
  else if 65 ≤ c.toNat ∧ c.toNat ≤ 70 then some (c.toNat - 55)
  else none

/-- Single-character escapes. -/
def unescChar? (c : Char) : Option Char :=
  if c = '"' then some '"'
  else if c = '\\' then some '\\'
  else if c = '/' then some '/'
  else if c = 'n' then some '\n'
  else if c = 'r' then some '\r'
  else if c = 't' then some '\t'
  else if c = 'b' then some (Char.ofNat 8)
  else if c = 'f' then some (Char.ofNat 12)
  else none

/-- Body of a string literal after the opening quote: the content up to the
closing quote, unescaped; raw control characters are rejected. -/
def readStr : List Char → Option (List Char × List Char)
  | [] => none
  | c :: rest =>
      if c = '"' then some ([], rest)
      else if c = '\\' then
        match rest with
        | 'u' :: a :: b :: d1 :: d2 :: rest2 =>
            match hexVal? a, hexVal? b, hexVal? d1, hexVal? d2 with
            | some va, some vb, some vc, some vd =>
                (readStr rest2).map (fun p =>
                  (Char.ofNat (((va * 16 + vb) * 16 + vc) * 16 + vd) :: p.1, p.2))
            | _, _, _, _ => none
        | e :: rest2 =>
            match unescChar? e with
            | some ch => (readStr rest2).map (fun p => (ch :: p.1, p.2))
            | none => none
        | [] => none
      else if c.toNat < 32 then none
      else (readStr rest).map (fun p => (c :: p.1, p.2))

mutual

/-- Fuel-bounded parser for the JSON value grammar the program writes
(null, strings, arrays, objects). -/
def jparse : Nat → List Char → Option (Json × List Char)
  | 0, _ => none
  | fuel + 1, cs =>
      match dropWs cs with
      | [] => none
      | c :: rest =>
          if c = 'n' then
            match rest with
            | 'u' :: 'l' :: 'l' :: rest2 => some (Json.null, rest2)
            | _ => none
          else if c = '"' then
            (readStr rest).map (fun p => (Json.str (String.mk p.1), p.2))
          else if c = '[' then
            match dropWs rest with
            | [] => none
            | c2 :: rest2 =>
                if c2 = ']' then some (Json.arr [], rest2)
                else (jparseItems fuel (c2 :: rest2)).map (fun p => (Json.arr p.1, p.2))
          else if c = '{' then
            match dropWs rest with
            | [] => none
            | c2 :: rest2 =>
                if c2 = '}' then some (Json.obj [], rest2)
                else (jparseMembers fuel (c2 :: rest2)).map (fun p => (Json.obj p.1, p.2))
          else none

/-- One or more comma-separated array elements, then the closing bracket. -/
def jparseItems : Nat → List Char → Option (List Json × List Char)
  | 0, _ => none
  | fuel + 1, cs =>
      match jparse fuel cs with
      | none => none
      | some (v, rest) =>
          match dropWs rest with
          | [] => none
          | c :: rest2 =>
              if c = ',' then
                match jparseItems fuel rest2 with
                | some (vs, rest3) => some (v :: vs, rest3)
                | none => none
              else if c = ']' then some ([v], rest2)
              else none

/-- One or more `"key": value` members, then the closing brace. -/
def jparseMembers : Nat → List Char → Option (List (String × Json) × List Char)
  | 0, _ => none
  | fuel + 1, cs =>
      match dropWs cs with
      | [] => none
      | c :: rest =>
          if c = '"' then
            match readStr rest with
            | none => none
            | some (k, rest1) =>
                match dropWs rest1 with
                | [] => none
                | c2 :: rest2 =>
                    if c2 = ':' then
                      match jparse fuel rest2 with
                      | none => none
                      | some (v, rest3) =>
                          match dropWs rest3 with
                          | [] => none
                          | c3 :: rest4 =>
                              if c3 = ',' then
                                match jparseMembers fuel rest4 with
                                | some (ms, rest5) => some ((String.mk k, v) :: ms, rest5)
                                | none => none
                              else if c3 = '}' then some ([(String.mk k, v)], rest4)
                              else none
                    else none
          else none

end

/-- `json.load` of a whole document: parse one value, then allow only
trailing whitespace. -/
def json_loads (s : String) : Option Json :=
  match jparse (s.length + 1) s.data with
  | some (j, rest) => if dropWs rest = [] then some j else none
  | none => none

/-! ### The dataset as a JSON document -/

/-- A string-or-null dict value. -/
def optJson : Option String → Json
  | none => Json.null
  | some s => Json.str s

/-- The JSON object a comment dict serializes to, in the insertion order
`username`, `rating`, `value` used by `get_game_comments`. -/
def comment_to_json (c : Comment) : Json :=
  Json.obj [("username", optJson c.username), ("rating", optJson c.rating),
    ("value", optJson c.value)]

/-- The JSON array for one game's comment list. -/
def comments_to_json (cs : List Comment) : Json :=
  Json.arr (cs.map comment_to_json)

/-- The JSON object `json.dump` receives in `_save_full_dataset`. -/
def dataset_to_json (d : List (String × List Comment)) : Json :=
  Json.obj (d.map (fun p => (p.1, comments_to_json p.2)))

/-- `DataRetriever._save_full_dataset`: content of the aggregate snapshot. -/
def save_full_dataset (d : List (String × List Comment)) : String :=
  json_dumps (dataset_to_json d)

/-- `DataRetriever.load_local_dataset` applied to a file with the given
content: `json.load`, with a decode failure degraded to the empty dataset. -/
def load_local_dataset (content : String) : Json :=
  match json_loads content with
  | some j => j
  | none => Json.obj []

/-- Decoder of a string-or-null dict value. -/
def json_to_opt : Json → Option (Option String)
  | Json.null => some none
  | Json.str s => some (some s)
  | _ => none

/-- Decoder of a comment dict. -/
def json_to_comment : Json → Option Comment
  | Json.obj [("username", u), ("rating", r), ("value", v)] =>
      match json_to_opt u, json_to_opt r, json_to_opt v with
      | some u1, some r1, some v1 => some { username := u1, rating := r1, value := v1 }
      | _, _, _ => none
  | _ => none

/-- Pointwise decoding of a list, failing if any element fails. -/
def optMapList {α β : Type} (f : α → Option β) : List α → Option (List β)
  | [] => some []
  | x :: xs =>
      match f x, optMapList f xs with
      | some y, some ys => some (y :: ys)
      | _, _ => none

/-- Decoder of one game's comment array. -/
def json_to_comments : Json → Option (List Comment)
  | Json.arr es => optMapList json_to_comment es
  | _ => none

/-- Decoder of the whole dataset object. -/
def json_to_dataset : Json → Option (List (String × List Comment))
  | Json.obj ms => optMapList (fun m => (json_to_comments m.2).map (fun cs => (m.1, cs))) ms
  | _ => none

/-! ### `data_retriever.py`: batch retrieval -/

/-- Path of the per-game snapshot, `{output_dir}/{sanitized}_comments.json`. -/
def per_game_path (isalnum : Char → Bool) (output_dir game_name : String) : String :=
  output_dir ++ "/" ++ sanitize_filename isalnum game_name ++ "_comments.json"

/-- Path of the aggregate snapshot. -/
def full_dataset_path (output_dir : String) : String :=
  output_dir ++ "/full_comments_dataset.json"

/-- `DataRetriever._save_game_comments`: the per-game write (path, content). -/
def save_game_comments (isalnum : Char → Bool) (output_dir game_name : String)
    (cs : List Comment) : String × String :=
  (per_game_path isalnum output_dir game_name, json_dumps (comments_to_json cs))

/-- Loop of `DataRetriever.retrieve_comments` with the client's lookups
injected: per name in order, an absent id lookup skips the name with a
warning; otherwise the comments are fetched, recorded in the dataset, and the
per-game snapshot written immediately. Returns the dataset and the writes in
order. -/
def retrieve_comments_loop (isalnum : Char → Bool) (lookup_id : String → Option Int)
    (lookup_comments : Int → Nat → List Comment) (max_comments : Nat)
    (output_dir : String) :
    List String → List (String × List Comment) × List (String × String)
  | [] => ([], [])
  | g :: gs =>
      match lookup_id g with
      | none =>
          retrieve_comments_loop isalnum lookup_id lookup_comments max_comments output_dir gs
      | some i =>
          let cs := lookup_comments i max_comments
          let rest :=
            retrieve_comments_loop isalnum lookup_id lookup_comments max_comments output_dir gs
          ((g, cs) :: rest.1, save_game_comments isalnum output_dir g cs :: rest.2)

/-- `DataRetriever.retrieve_comments`: the loop over all names followed by
one aggregate snapshot write. -/
def retrieve_comments (isalnum : Char → Bool) (lookup_id : String → Option Int)
    (lookup_comments : Int → Nat → List Comment) (games : List String)
    (max_comments : Nat) (output_dir : String) :
    List (String × List Comment) × List (String × String) :=
  let r := retrieve_comments_loop isalnum lookup_id lookup_comments max_comments output_dir games
  (r.1, r.2 ++ [(full_dataset_path output_dir, json_dumps (dataset_to_json r.1))])

/-! ### A heap model of `preprocess_dataset`, for its frame property

The comment records handled by `preprocess_dataset` are Python dicts, i.e.
mutable objects. To state that the input dataset is not mutated, the dicts
live in an explicit heap addressed by references; the game lists themselves
are only read, never written, so they stay values. -/

/-- A Python value stored in a comment dict: `None`, a string, or the token
list written by preprocessing. -/
inductive PyVal where
  | pynone : PyVal
  | pystr : String → PyVal
  | pylist : List String → PyVal
deriving DecidableEq

/-- Dict read, `d[k]` (first binding; Python dict keys are unique). -/
def dictGet (d : List (String × PyVal)) (k : String) : Option PyVal :=
  (d.find? (fun p => p.1 == k)).map Prod.snd

/-- Dict write, `d[k] = v`: an existing key is updated in place, a new key is
appended at the end, matching Python insertion order. -/
def dictSet (d : List (String × PyVal)) (k : String) (v : PyVal) :
    List (String × PyVal) :=
  if d.any (fun p => p.1 == k) then d.map (fun p => if p.1 == k then (k, v) else p)
  else d ++ [(k, v)]

/-- The heap of comment dicts, addressed by reference. -/
abbrev Heap := List (List (String × PyVal))

/-- Read a reference. -/
def heapGet (h : Heap) (r : Nat) : List (String × PyVal) := h.getD r []

/-- Overwrite a reference. -/
def heapSet (h : Heap) (r : Nat) (d : List (String × PyVal)) : Heap := h.set r d

/-- Allocate a fresh dict (`dict.copy` allocates a new object). -/
def heapAlloc (h : Heap) (d : List (String × PyVal)) : Heap × Nat :=
  (h ++ [d], h.length)

/-- Heap-level body of the inner loop of `preprocess_dataset`:
`preprocessed_comment = comment.copy()`, then the two key writes go to the
fresh copy only. Reading a `value` that is absent or `None` raises. -/
def preprocess_comment_heap (word_tokenize : String → Except String (List String))
    (stop_words : List String) (h : Heap) (r : Nat) : Heap × Except String Nat :=
  let alloc := heapAlloc h (heapGet h r)
  match dictGet (heapGet h r) "value" with
  | some (PyVal.pystr v) =>
      let h2 := heapSet alloc.1 alloc.2
        (dictSet (heapGet alloc.1 alloc.2) "clean_text" (PyVal.pystr (clean_text v)))
      let h3 := heapSet h2 alloc.2
        (dictSet (heapGet h2 alloc.2) "tokens"
          (PyVal.pylist (tokenize word_tokenize stop_words (clean_text v))))
      (h3, Except.ok alloc.2)
  | _ => (alloc.1, Except.error "AttributeError")

/-- Heap-level inner loop of `preprocess_dataset` over one game's comments. -/
def preprocess_comments_heap (word_tokenize : String → Except String (List String))
    (stop_words : List String) : Heap → List Nat → Heap × Except String (List Nat)
  | h, [] => (h, Except.ok [])
  | h, r :: rs =>
      match preprocess_comment_heap word_tokenize stop_words h r with
      | (h1, Except.error e) => (h1, Except.error e)
      | (h1, Except.ok r1) =>
          match preprocess_comments_heap word_tokenize stop_words h1 rs with
          | (h2, Except.error e) => (h2, Except.error e)
          | (h2, Except.ok rs1) => (h2, Except.ok (r1 :: rs1))

/-- Heap-level `preprocess_dataset` over the games in order. -/
def preprocess_dataset_heap (word_tokenize : String → Except String (List String))
    (stop_words : List String) :
    Heap → List (String × List Nat) → Heap × Except String (List (String × List Nat))
  | h, [] => (h, Except.ok [])
  | h, p :: ps =>
      match preprocess_comments_heap word_tokenize stop_words h p.2 with
      | (h1, Except.error e) => (h1, Except.error e)
      | (h1, Except.ok rs1) =>
          match preprocess_dataset_heap word_tokenize stop_words h1 ps with
          | (h2, Except.error e) => (h2, Except.error e)
          | (h2, Except.ok rest) => (h2, Except.ok ((p.1, rs1) :: rest))

/-- One heap extends another when every reference of the smaller heap reads
the same dict in both. -/
def heapFrames (h h' : Heap) : Prop :=
  h.length ≤ h'.length ∧ ∀ i, i < h.length → heapGet h' i = heapGet h i

/-! ### Helper lemmas -/

theorem toNat_ofNat_valid (n : Nat) (h : n < 55296) : (Char.ofNat n).toNat = n := by
  have hv : n.isValidChar := Or.inl h
  simp only [Char.ofNat, dif_pos hv, Char.ofNatAux, Char.toNat]
  simp [UInt32.toNat]

theorem pyToLower_idem (c : Char) : pyToLower (pyToLower c) = pyToLower c := by
  unfold pyToLower
  by_cases h : 65 ≤ c.toNat ∧ c.toNat ≤ 90
  · rw [if_pos h]
    have ht : (Char.ofNat (c.toNat + 32)).toNat = c.toNat + 32 :=
      toNat_ofNat_valid _ (by omega)
    rw [if_neg (by omega)]
  · rw [if_neg h, if_neg h]

/-! ### Claims about the text preprocessor -/

/-- Claim C6 is false as stated: on the spec's example the code yields a
single trailing space, not two. -/
theorem clean_text_example_counterexample :
    clean_text "Catan IS Great!! (1995)" = "catan is great " ∧
    ("catan is great " : String) ≠ "catan is great  " := by
  exact ⟨rfl, by decide⟩

/-- Claim C6 (amended): `clean_text` lowercases its input and keeps exactly
the ASCII letters and whitespace characters, and on the spec's example yields
the string `catan is great ` with a single trailing space. -/
theorem clean_text_spec :
    (∀ s : String,
      clean_text s = String.mk ((s.data.map pyToLower).filter
        (fun c => isAsciiLetter c || pyIsSpace c))) ∧
    clean_text "Catan IS Great!! (1995)" = "catan is great " :=
  ⟨fun _ => rfl, rfl⟩

/-- Claim C9: `clean_text` is idempotent — one application produces only
lowercase letters and whitespace, on which both passes act as the identity. -/
theorem clean_text_idempotent (s : String) : clean_text (clean_text s) = clean_text s := by
  unfold clean_text
  congr 1
  set P : Char → Bool := fun c => isAsciiLetter c || pyIsSpace c with hP
  have hfix : ∀ c ∈ (s.data.map pyToLower).filter P, pyToLower c = c := by
    intro c hc
    have hmem : c ∈ s.data.map pyToLower := List.mem_of_mem_filter hc
    obtain ⟨x, _, hx⟩ := List.mem_map.mp hmem
    rw [← hx, pyToLower_idem]
  have hmap : ((s.data.map pyToLower).filter P).map pyToLower
      = (s.data.map pyToLower).filter P := by
    calc ((s.data.map pyToLower).filter P).map pyToLower
        = ((s.data.map pyToLower).filter P).map id := List.map_congr_left hfix
      _ = (s.data.map pyToLower).filter P := List.map_id _
  rw [hmap, List.filter_filter]
  apply List.filter_congr
  intro c _
  simp [Bool.and_self]

/-- Claim C8: filename sanitization is a deterministic pure function that
maps every character that is not alphanumeric (by the runtime's
Unicode-aware `str.isalnum`) and not one of `.`, `_`, `-` to `_`, and
leaves all other characters unchanged; consequently it is not injective:
`A/B` and `A B` collide on `A_B`. The injected `isalnum` is constrained
only where Python pins it, on the ASCII range. -/
theorem sanitize_filename_spec (isalnum : Char → Bool)
    (hascii : ∀ c : Char, c.toNat < 128 → isalnum c = c.isAlphanum) :
    (∀ name : String, sanitize_filename isalnum name =
      String.mk (name.data.map (fun c =>
        if isalnum c || (c = '.' || c = '_' || c = '-') then c else '_'))) ∧
    sanitize_filename isalnum "A/B" = "A_B" ∧
    sanitize_filename isalnum "A B" = "A_B" ∧
    ("A/B" : String) ≠ "A B" := by
  have hA : isalnum 'A' = true := (hascii 'A' (by decide)).trans (by decide)
  have hB : isalnum 'B' = true := (hascii 'B' (by decide)).trans (by decide)
  have hsl : isalnum '/' = false := (hascii '/' (by decide)).trans (by decide)
  have hsp : isalnum ' ' = false := (hascii ' ' (by decide)).trans (by decide)
  refine ⟨fun _ => rfl, ?_, ?_, by decide⟩
  · show String.mk ((['A', '/', 'B'] : List Char).map (fun c =>
      if isalnum c || (c = '.' || c = '_' || c = '-') then c else '_')) = "A_B"
    simp [hA, hB, hsl]
  · show String.mk ((['A', ' ', 'B'] : List Char).map (fun c =>
      if isalnum c || (c = '.' || c = '_' || c = '-') then c else '_')) = "A_B"
    simp [hA, hB, hsp]

/-- Witness for claim C8: the ASCII alphanumeric test satisfies the ASCII
agreement hypothesis, and the collision is realized on it. -/
theorem sanitize_filename_spec_witness :
    (∀ c : Char, c.toNat < 128 → Char.isAlphanum c = Char.isAlphanum c) ∧
    sanitize_filename Char.isAlphanum "A/B" = "A_B" ∧
    sanitize_filename Char.isAlphanum "A B" = "A_B" :=
  ⟨fun _ _ => rfl,
   (sanitize_filename_spec Char.isAlphanum (fun _ _ => rfl)).2.1,
   (sanitize_filename_spec Char.isAlphanum (fun _ _ => rfl)).2.2.1⟩

/-- Claim C5 is false as stated: a structurally valid dataset containing a
comment whose optional `value` field is null makes `preprocess_dataset`
raise instead of succeeding. -/
theorem preprocess_dataset_none_counterexample :
    preprocess_dataset (fun s => Except.ok [s]) []
      [("Catan", [{ username := none, rating := none, value := none }])] =
      Except.error "AttributeError" := rfl

theorem preprocess_comments_ok (word_tokenize : String → Except String (List String))
    (stop_words : List String) (cs : List Comment)
    (h : ∀ c ∈ cs, c.value ≠ none) :
    preprocess_comments word_tokenize stop_words cs =
      Except.ok (cs.map (fun c =>
        { username := c.username, rating := c.rating, value := c.value,
          clean_text := clean_text (c.value.getD ""),
          tokens := tokenize word_tokenize stop_words (clean_text (c.value.getD "")) })) := by
  induction cs with
  | nil => rfl
  | cons c cs ih =>
      obtain ⟨v, hv⟩ := Option.ne_none_iff_exists'.mp (h c (List.mem_cons_self c cs))
      have ih' := ih (fun x hx => h x (List.mem_cons_of_mem c hx))
      simp [preprocess_comments, preprocess_comment, hv, ih']

/-- Claim C5 (amended): `preprocess_dataset` keeps the game keys in order and
enriches each comment with `clean_text` and `tokens`, preserving all original
fields — provided every comment's `value` field is a present string; on a
comment whose `value` is absent or null it raises instead. -/
theorem preprocess_dataset_total_on_present_values
    (word_tokenize : String → Except String (List String)) (stop_words : List String)
    (dataset : List (String × List Comment))
    (hval : ∀ p ∈ dataset, ∀ c ∈ p.2, c.value ≠ none) :
    preprocess_dataset word_tokenize stop_words dataset =
      Except.ok (dataset.map (fun p => (p.1, p.2.map (fun c =>
        { username := c.username, rating := c.rating, value := c.value,
          clean_text := clean_text (c.value.getD ""),
          tokens := tokenize word_tokenize stop_words (clean_text (c.value.getD "")) })))) := by
  induction dataset with
  | nil => rfl
  | cons p ps ih =>
      have hp := hval p (List.mem_cons_self p ps)
      have ih' := ih (fun q hq => hval q (List.mem_cons_of_mem p hq))
      simp [preprocess_dataset, preprocess_comments_ok word_tokenize stop_words p.2 hp, ih']

/-- Witness for the amended claim C5 at a concrete dataset. -/
theorem preprocess_dataset_total_witness :
    preprocess_dataset (fun s => Except.ok [s]) ["the"]
      [("Catan", [{ username := some "alice", rating := some "8", value := some "Great game" }])] =
      Except.ok [("Catan",
        [{ username := some "alice", rating := some "8", value := some "Great game",
           clean_text := clean_text "Great game",
           tokens := tokenize (fun s => Except.ok [s]) ["the"] (clean_text "Great game") }])] :=
  preprocess_dataset_total_on_present_values _ _ _ (by decide)

/-! ### Claims about the API client -/

theorem safe_api_call_from_all_fail (fetch : Nat → Except String String)
    (errs : Nat → String) (mr rd : Nat)
    (hfail : ∀ i, i < mr → fetch i = Except.error (errs i)) :
    ∀ n a, n = mr - a → a < mr →
      safe_api_call_from fetch mr rd a =
        (CallResult.failure (errs (mr - 1)),
         (List.range' (a + 1) (mr - 1 - a)).map (fun i => rd * i),
         List.range' (a + 1) (mr - a)) := by
  intro n
  induction n with
  | zero => intro a h0 ha; omega
  | succ n ih =>
      intro a hn ha
      unfold safe_api_call_from
      simp only [dif_pos ha, hfail a ha]
      by_cases hlast : a < mr - 1
      · rw [if_pos hlast]
        simp only [ih (a + 1) (by omega) (by omega)]
        have h1 : mr - 1 - a = (mr - 1 - (a + 1)) + 1 := by omega
        have h2 : mr - a = (mr - (a + 1)) + 1 := by omega
        rw [h1, h2, List.range'_succ, List.range'_succ, List.map_cons]
      · have haeq : a = mr - 1 := by omega
        rw [if_neg hlast]
        have h1 : mr - 1 - a = 0 := by omega
        have h2 : mr - a = 1 := by omega
        rw [h1, h2, haeq]
        rfl

/-- Claim C1: when every attempt fails, `_safe_api_call` makes exactly
`max_retries` attempts (1-based attempt numbers 1..max_retries), sleeps
`retry_delay * attemptNumber` between consecutive attempts (so the delays are
strictly increasing whenever the delay is positive), and propagates the
failure of the final attempt. -/
theorem safe_api_call_retries (fetch : Nat → Except String String)
    (errs : Nat → String) (mr rd : Nat)
    (hfail : ∀ i, i < mr → fetch i = Except.error (errs i)) (hmr : 1 ≤ mr) :
    safe_api_call fetch mr rd =
      (CallResult.failure (errs (mr - 1)),
       (List.range' 1 (mr - 1)).map (fun i => rd * i),
       List.range' 1 mr) ∧
    (0 < rd → ((List.range' 1 (mr - 1)).map (fun i => rd * i)).Pairwise (· < ·)) := by
  constructor
  · have h := safe_api_call_from_all_fail fetch errs mr rd hfail mr 0 (by omega) (by omega)
    simpa using h
  · intro hrd
    have hpw : (List.range' 1 (mr - 1)).Pairwise (· < ·) := List.pairwise_lt_range' 1 (mr - 1)
    exact (List.pairwise_map).mpr (hpw.imp (fun hij => by
      exact (Nat.mul_lt_mul_left hrd).mpr hij))

/-- Witness for claim C1: three attempts at delay 2 sleep 2 then 4 and
propagate the last connection error. -/
theorem safe_api_call_retries_witness :
    safe_api_call (fun _ => Except.error "ConnectionError") 3 2 =
      (CallResult.failure "ConnectionError", [2, 4], [1, 2, 3]) ∧
    ([2, 4] : List Nat).Pairwise (· < ·) := by
  have h := safe_api_call_retries (fun _ => Except.error "ConnectionError")
    (fun _ => "ConnectionError") 3 2 (fun _ _ => rfl) (by omega)
  exact ⟨by simpa using h.1, by simpa using h.2 (by omega)⟩

theorem safe_api_call_first_ok (fetch : Nat → Except String String)
    (mr rd : Nat) (raw : String) (hmr : 1 ≤ mr) (hfetch : fetch 0 = Except.ok raw) :
    (safe_api_call fetch mr rd).1 = CallResult.success raw := by
  unfold safe_api_call safe_api_call_from
  rw [dif_pos (by omega), hfetch]

/-- Claim C2: on a fetched body that is malformed XML, `_parse_xml` re-raises
the parse failure, while `get_game_id`, `get_game_info` and
`get_game_comments` each catch it and degrade to `none`, `none` and the empty
list respectively. -/
theorem malformed_xml_degrades (fetch : Nat → Except String String) (mr rd : Nat)
    (fromstring : String → Except String Xml) (raw e : String)
    (game_name : String) (game_id : Int) (max_comments : Nat)
    (hmr : 1 ≤ mr) (hfetch : fetch 0 = Except.ok raw)
    (hparse : fromstring raw = Except.error e) :
    parse_xml fromstring raw = Except.error e ∧
    get_game_id fetch mr rd fromstring game_name = none ∧
    get_game_info fetch mr rd fromstring game_id = none ∧
    get_game_comments fetch mr rd fromstring game_id max_comments = [] := by
  have hcall := safe_api_call_first_ok fetch mr rd raw hmr hfetch
  refine ⟨hparse, ?_, ?_, ?_⟩ <;>
    simp [get_game_id, get_game_info, get_game_comments, hcall, parse_xml, hparse]

/-- Witness for claim C2 at a concrete malformed body. -/
theorem malformed_xml_degrades_witness :
    parse_xml (fun _ => Except.error "ParseError") "<items><item" = Except.error "ParseError" ∧
    get_game_id (fun _ => Except.ok "<items><item") 3 2
      (fun _ => Except.error "ParseError") "Catan" = none ∧
    get_game_info (fun _ => Except.ok "<items><item") 3 2
      (fun _ => Except.error "ParseError") 13 = none ∧
    get_game_comments (fun _ => Except.ok "<items><item") 3 2
      (fun _ => Except.error "ParseError") 13 100 = [] :=
  malformed_xml_degrades (fun _ => Except.ok "<items><item") 3 2
    (fun _ => Except.error "ParseError") "<items><item" "ParseError"
    "Catan" 13 100 (by omega) rfl rfl

/-- Claim C3: on a well-formed search response, `get_game_id` returns the
first `item` child's `id` attribute as an integer, and returns `none` (not an
error) when there is no `item` element. -/
theorem get_game_id_spec (fetch : Nat → Except String String) (mr rd : Nat)
    (fromstring : String → Except String Xml) (game_name raw : String) (root : Xml)
    (hmr : 1 ≤ mr) (hfetch : fetch 0 = Except.ok raw)
    (hparse : fromstring raw = Except.ok root) :
    (∀ game idStr n, root.find "item" = some game → game.get "id" = some idStr →
        pyInt? idStr = some n → get_game_id fetch mr rd fromstring game_name = some n) ∧
    (root.find "item" = none → get_game_id fetch mr rd fromstring game_name = none) := by
  have hcall := safe_api_call_first_ok fetch mr rd raw hmr hfetch
  constructor
  · intro game idStr n hfind hget hint
    simp [get_game_id, hcall, parse_xml, hparse, hfind, hget, hint]
  · intro hfind
    simp [get_game_id, hcall, parse_xml, hparse, hfind]

/-- Witness for claim C3: a one-item response yields its id, 13. -/
theorem get_game_id_spec_witness :
    get_game_id (fun _ => Except.ok "<xml>") 3 2
      (fun _ => Except.ok (Xml.elem "items" [] [Xml.elem "item" [("id", "13")] [] none] none))
      "Catan" = some 13 :=
  (get_game_id_spec (fun _ => Except.ok "<xml>") 3 2
      (fun _ => Except.ok (Xml.elem "items" [] [Xml.elem "item" [("id", "13")] [] none] none))
      "Catan" "<xml>" (Xml.elem "items" [] [Xml.elem "item" [("id", "13")] [] none] none)
      (by omega) rfl rfl).1
    (Xml.elem "item" [("id", "13")] [] none) "13" 13 rfl rfl rfl

/-! ### The frame property of `preprocess_dataset` -/

theorem heapFrames_refl (h : Heap) : heapFrames h h :=
  ⟨Nat.le_refl _, fun _ _ => rfl⟩

theorem heapFrames_trans {h1 h2 h3 : Heap} (a : heapFrames h1 h2) (b : heapFrames h2 h3) :
    heapFrames h1 h3 :=
  ⟨Nat.le_trans a.1 b.1, fun i hi => (b.2 i (Nat.lt_of_lt_of_le hi a.1)).trans (a.2 i hi)⟩

theorem getD_set_of_ne (l : Heap) (n i : Nat) (x : List (String × PyVal)) (hne : i ≠ n) :
    (l.set n x).getD i [] = l.getD i [] := by
  simp [List.getD_eq_getElem?_getD, List.getElem?_set_ne (Ne.symm hne)]

theorem getD_append_left (l : Heap) (x : List (String × PyVal)) (i : Nat)
    (hi : i < l.length) : (l ++ [x]).getD i [] = l.getD i [] := by
  simp [List.getD_eq_getElem?_getD, List.getElem?_append_left hi]

theorem heapFrames_alloc (h : Heap) (d : List (String × PyVal)) :
    heapFrames h (h ++ [d]) :=
  ⟨by simp, fun i hi => getD_append_left h d i hi⟩

theorem heapFrames_comment (word_tokenize : String → Except String (List String))
    (stop_words : List String) (h : Heap) (r : Nat) :
    heapFrames h (preprocess_comment_heap word_tokenize stop_words h r).1 := by
  have happ := heapFrames_alloc h (heapGet h r)
  unfold preprocess_comment_heap
  simp only [heapAlloc, heapSet]
  split
  · refine ⟨by simp, fun i hi => ?_⟩
    have hne : i ≠ h.length := by omega
    unfold heapGet
    rw [getD_set_of_ne _ _ _ _ hne, getD_set_of_ne _ _ _ _ hne,
      getD_append_left h _ i hi]
  · exact happ

theorem heapFrames_comments (word_tokenize : String → Except String (List String))
    (stop_words : List String) :
    ∀ (rs : List Nat) (h : Heap),
      heapFrames h (preprocess_comments_heap word_tokenize stop_words h rs).1
  | [], h => heapFrames_refl h
  | r :: rs, h => by
      have h1f := heapFrames_comment word_tokenize stop_words h r
      unfold preprocess_comments_heap
      rcases hE : preprocess_comment_heap word_tokenize stop_words h r with ⟨h1, res⟩
      rw [hE] at h1f
      cases res with
      | error e => simpa using h1f
      | ok r1 =>
          have h2f := heapFrames_comments word_tokenize stop_words rs h1
          dsimp only
          rcases hE2 : preprocess_comments_heap word_tokenize stop_words h1 rs with ⟨h2, res2⟩
          rw [hE2] at h2f
          cases res2 with
          | error e => simpa using heapFrames_trans (by simpa using h1f) (by simpa using h2f)
          | ok rs1 => simpa using heapFrames_trans (by simpa using h1f) (by simpa using h2f)

theorem heapFrames_dataset (word_tokenize : String → Except String (List String))
    (stop_words : List String) :
    ∀ (d : List (String × List Nat)) (h : Heap),
      heapFrames h (preprocess_dataset_heap word_tokenize stop_words h d).1
  | [], h => heapFrames_refl h
  | p :: ps, h => by
      have h1f := heapFrames_comments word_tokenize stop_words p.2 h
      unfold preprocess_dataset_heap
      rcases hE : preprocess_comments_heap word_tokenize stop_words h p.2 with ⟨h1, res⟩
      rw [hE] at h1f
      cases res with
      | error e => simpa using h1f
      | ok rs1 =>
          have h2f := heapFrames_dataset word_tokenize stop_words ps h1
          dsimp only
          rcases hE2 : preprocess_dataset_heap word_tokenize stop_words h1 ps with ⟨h2, res2⟩
          rw [hE2] at h2f
          cases res2 with
          | error e => simpa using heapFrames_trans (by simpa using h1f) (by simpa using h2f)
          | ok rest => simpa using heapFrames_trans (by simpa using h1f) (by simpa using h2f)

/-- Claim C10: `preprocess_dataset` does not mutate its input. Each comment
dict is copied before the `clean_text` and `tokens` writes, which go to the
copy only, so after the call every comment dict of the input heap — hence
every game entry of the input dataset — reads exactly as before. -/
theorem preprocess_dataset_no_mutation (word_tokenize : String → Except String (List String))
    (stop_words : List String) (h : Heap) (d : List (String × List Nat)) (i : Nat)
    (hi : i < h.length) :
    heapGet (preprocess_dataset_heap word_tokenize stop_words h d).1 i = heapGet h i :=
  (heapFrames_dataset word_tokenize stop_words d h).2 i hi

/-- Witness for claim C10 at a concrete one-game, one-comment heap. -/
theorem preprocess_dataset_no_mutation_witness :
    heapGet (preprocess_dataset_heap (fun s => Except.ok [s]) []
        [[("username", PyVal.pystr "bob"), ("rating", PyVal.pynone),
          ("value", PyVal.pystr "Fun")]]
        [("Catan", [0])]).1 0 =
      heapGet [[("username", PyVal.pystr "bob"), ("rating", PyVal.pynone),
          ("value", PyVal.pystr "Fun")]] 0 :=
  preprocess_dataset_no_mutation (fun s => Except.ok [s]) []
    [[("username", PyVal.pystr "bob"), ("rating", PyVal.pynone),
      ("value", PyVal.pystr "Fun")]]
    [("Catan", [0])] 0 (by decide)

/-! ### Round trip of the JSON codec: helper lemmas -/

theorem jparse_step (f : Nat) (cs : List Char) : jparse (f + 1) cs =
    (match dropWs cs with
      | [] => none
      | c :: rest =>
          if c = 'n' then
            match rest with
            | 'u' :: 'l' :: 'l' :: rest2 => some (Json.null, rest2)
            | _ => none
          else if c = '"' then
            (readStr rest).map (fun p => (Json.str (String.mk p.1), p.2))
          else if c = '[' then
            match dropWs rest with
            | [] => none
            | c2 :: rest2 =>
                if c2 = ']' then some (Json.arr [], rest2)
                else (jparseItems f (c2 :: rest2)).map (fun p => (Json.arr p.1, p.2))
          else if c = '{' then
            match dropWs rest with
            | [] => none
            | c2 :: rest2 =>
                if c2 = '}' then some (Json.obj [], rest2)
                else (jparseMembers f (c2 :: rest2)).map (fun p => (Json.obj p.1, p.2))
          else none) := rfl

theorem jparseItems_step (f : Nat) (cs : List Char) : jparseItems (f + 1) cs =
    (match jparse f cs with
      | none => none
      | some (v, rest) =>
          match dropWs rest with
          | [] => none
          | c :: rest2 =>
              if c = ',' then
                match jparseItems f rest2 with
                | some (vs, rest3) => some (v :: vs, rest3)
                | none => none
              else if c = ']' then some ([v], rest2)
              else none) := rfl

theorem jparseMembers_step (f : Nat) (cs : List Char) : jparseMembers (f + 1) cs =
    (match dropWs cs with
      | [] => none
      | c :: rest =>
          if c = '"' then
            match readStr rest with
            | none => none
            | some (k, rest1) =>
                match dropWs rest1 with
                | [] => none
                | c2 :: rest2 =>
                    if c2 = ':' then
                      match jparse f rest2 with
                      | none => none
                      | some (v, rest3) =>
                          match dropWs rest3 with
                          | [] => none
                          | c3 :: rest4 =>
                              if c3 = ',' then
                                match jparseMembers f rest4 with
                                | some (ms, rest5) => some ((String.mk k, v) :: ms, rest5)
                                | none => none
                              else if c3 = '}' then some ([(String.mk k, v)], rest4)
                              else none
                    else none
          else none) := rfl

theorem dropWs_replicate (n : Nat) (w : List Char) :
    dropWs (List.replicate n ' ' ++ w) = dropWs w := by
  induction n with
  | zero => rfl
  | succ n ih => simpa [dropWs, jsonWs] using ih

theorem dropWs_nlInd (lvl : Nat) (w : List Char) :
    dropWs (nlInd lvl ++ w) = dropWs w := by
  show dropWs ('\n' :: (List.replicate (2 * lvl) ' ' ++ w)) = dropWs w
  rw [show dropWs ('\n' :: (List.replicate (2 * lvl) ' ' ++ w)) =
    dropWs (List.replicate (2 * lvl) ' ' ++ w) from rfl, dropWs_replicate]

theorem jparse_ws (f lvl : Nat) (w : List Char) :
    jparse f (nlInd lvl ++ w) = jparse f w := by
  cases f with
  | zero => rfl
  | succ f => rw [jparse_step, jparse_step, dropWs_nlInd]

theorem jparseItems_ws (f lvl : Nat) (w : List Char) :
    jparseItems f (nlInd lvl ++ w) = jparseItems f w := by
  cases f with
  | zero => rfl
  | succ f => rw [jparseItems_step, jparseItems_step, jparse_ws]

theorem jparseMembers_ws (f lvl : Nat) (w : List Char) :
    jparseMembers f (nlInd lvl ++ w) = jparseMembers f w := by
  cases f with
  | zero => rfl
  | succ f => rw [jparseMembers_step, jparseMembers_step, dropWs_nlInd]

theorem dropWs_space (w : List Char) : dropWs (' ' :: w) = dropWs w := by
  simp [dropWs, jsonWs]

theorem jparse_space (f : Nat) (w : List Char) :
    jparse f (' ' :: w) = jparse f w := by
  cases f with
  | zero => rfl
  | succ f => rw [jparse_step, jparse_step, dropWs_space]

theorem string_mk_data (s : String) : String.mk s.data = s := rfl

theorem hexVal_hexDig (k : Nat) (hk : k < 16) : hexVal? (hexDig k) = some k := by
  interval_cases k <;> decide

theorem readStr_cons (c : Char) (rest : List Char) :
    readStr (c :: rest) =
      (if c = '"' then some ([], rest)
       else if c = '\\' then
         match rest with
         | 'u' :: a :: b :: d1 :: d2 :: rest2 =>
             match hexVal? a, hexVal? b, hexVal? d1, hexVal? d2 with
             | some va, some vb, some vc, some vd =>
                 (readStr rest2).map (fun p =>
                   (Char.ofNat (((va * 16 + vb) * 16 + vc) * 16 + vd) :: p.1, p.2))
             | _, _, _, _ => none
         | e :: rest2 =>
             match unescChar? e with
             | some ch => (readStr rest2).map (fun p => (ch :: p.1, p.2))
             | none => none
         | [] => none
       else if c.toNat < 32 then none
       else (readStr rest).map (fun p => (c :: p.1, p.2))) := by
  rw [readStr.eq_def]

theorem readStr_escChar (c : Char) (w : List Char) :
    readStr (escChar c ++ w) = (readStr w).map (fun p => (c :: p.1, p.2)) := by
  by_cases h1 : c = '"'
  · subst h1; simp [escChar, readStr_cons, unescChar?]
  by_cases h2 : c = '\\'
  · subst h2; simp [escChar, readStr_cons, unescChar?]
  by_cases h3 : c = '\n'
  · subst h3; simp [escChar, readStr_cons, unescChar?]
  by_cases h4 : c = '\r'
  · subst h4; simp [escChar, readStr_cons, unescChar?]
  by_cases h5 : c = '\t'
  · subst h5; simp [escChar, readStr_cons, unescChar?]
  by_cases h6 : c.toNat = 8
  · have hc : c = Char.ofNat 8 := by rw [← Char.ofNat_toNat c, h6]
    subst hc; simp [escChar, readStr_cons, unescChar?]
  by_cases h7 : c.toNat = 12
  · have hc : c = Char.ofNat 12 := by rw [← Char.ofNat_toNat c, h7]
    subst hc; simp [escChar, readStr_cons, unescChar?]
  by_cases h8 : c.toNat < 32
  · have e1 : escChar c =
        ['\\', 'u', '0', '0', hexDig (c.toNat / 16), hexDig (c.toNat % 16)] := by
      simp only [escChar, if_neg h1, if_neg h2, if_neg h3, if_neg h4, if_neg h5,
        if_neg h6, if_neg h7, if_pos h8]
    rw [e1, List.cons_append, readStr_cons]
    show (match hexVal? '0', hexVal? '0', hexVal? (hexDig (c.toNat / 16)),
        hexVal? (hexDig (c.toNat % 16)) with
      | some va, some vb, some vc, some vd =>
          (readStr w).map (fun p =>
            (Char.ofNat (((va * 16 + vb) * 16 + vc) * 16 + vd) :: p.1, p.2))
      | _, _, _, _ => none) = (readStr w).map (fun p => (c :: p.1, p.2))
    rw [hexVal_hexDig (c.toNat / 16) (by omega), hexVal_hexDig (c.toNat % 16) (by omega)]
    show (readStr w).map (fun p =>
        (Char.ofNat (((0 * 16 + 0) * 16 + c.toNat / 16) * 16 + c.toNat % 16) :: p.1, p.2)) = _
    have hval : ((0 * 16 + 0) * 16 + c.toNat / 16) * 16 + c.toNat % 16 = c.toNat := by omega
    rw [hval, Char.ofNat_toNat]
  · have e1 : escChar c = [c] := by
      simp only [escChar, if_neg h1, if_neg h2, if_neg h3, if_neg h4, if_neg h5,
        if_neg h6, if_neg h7, if_neg h8]
    rw [e1, List.singleton_append, readStr_cons, if_neg h1, if_neg h2, if_neg h8]

theorem readStr_escape_list (l : List Char) (w : List Char) :
    readStr (l.flatMap escChar ++ '"' :: w) = some (l, w) := by
  induction l with
  | nil => simp [readStr_cons]
  | cons c l ih =>
      rw [List.flatMap_cons, List.append_assoc, readStr_escChar, ih]
      rfl

theorem readStr_dumpStr (s : String) (w : List Char) :
    readStr (s.data.flatMap escChar ++ '"' :: w) = some (s.data, w) :=
  readStr_escape_list s.data w

theorem nlInd_length (lvl : Nat) : (nlInd lvl).length = 2 * lvl + 1 := by
  simp [nlInd]

theorem dumpStr_length (s : String) :
    (dumpStr s).length = (s.data.flatMap escChar).length + 2 := by
  simp [dumpStr]

/-- The first character of any serialized value is one of the four value
openers, so it is neither whitespace nor a closing delimiter. -/
theorem dumpVal_opener (lvl : Nat) (j : Json) :
    ∃ c t, dumpVal lvl j = c :: t ∧ (c = 'n' ∨ c = '"' ∨ c = '[' ∨ c = '{') := by
  rcases j with _ | s | (_ | ⟨x, xs⟩) | (_ | ⟨m, ms⟩)
  · exact ⟨_, _, rfl, Or.inl rfl⟩
  · exact ⟨_, _, rfl, Or.inr (Or.inl rfl)⟩
  · exact ⟨_, _, rfl, Or.inr (Or.inr (Or.inl rfl))⟩
  · exact ⟨_, _, rfl, Or.inr (Or.inr (Or.inl rfl))⟩
  · exact ⟨_, _, rfl, Or.inr (Or.inr (Or.inr rfl))⟩
  · exact ⟨_, _, rfl, Or.inr (Or.inr (Or.inr rfl))⟩

theorem dumpVal_head (lvl : Nat) (j : Json) :
    ∃ c t, dumpVal lvl j = c :: t ∧ jsonWs c = false ∧ c ≠ ']' ∧ c ≠ '}' := by
  obtain ⟨c, t, he, hd⟩ := dumpVal_opener lvl j
  refine ⟨c, t, he, ?_, ?_, ?_⟩ <;>
    rcases hd with h | h | h | h <;> subst h <;> decide

theorem dropWs_dumpVal (lvl : Nat) (j : Json) (w : List Char) :
    dropWs (dumpVal lvl j ++ w) = dumpVal lvl j ++ w := by
  obtain ⟨c, t, he, hws, _, _⟩ := dumpVal_head lvl j
  rw [he, List.cons_append]
  show (if jsonWs c then dropWs (t ++ w) else c :: (t ++ w)) = _
  rw [hws]
  rfl

theorem dropWs_notws (c : Char) (w : List Char) (h : jsonWs c = false) :
    dropWs (c :: w) = c :: w := by
  show (if jsonWs c then dropWs w else c :: w) = _
  rw [h]
  rfl

theorem jparse_on_arr (f : Nat) (x : Json) (xs : List Json) (lvl cl : Nat) (w : List Char) :
    jparse (f + 1)
        ('[' :: (nlInd lvl ++ (dumpVal lvl x ++ (dumpArrTail lvl xs ++ (nlInd cl ++ (']' :: w))))))
      = (jparseItems f
          (dumpVal lvl x ++ (dumpArrTail lvl xs ++ (nlInd cl ++ (']' :: w))))).map
          (fun p => (Json.arr p.1, p.2)) := by
  rw [jparse_step, dropWs_notws _ _ (by decide)]
  dsimp only
  rw [if_neg (show ('[' : Char) ≠ 'n' by decide), if_neg (show ('[' : Char) ≠ '"' by decide),
    if_pos (rfl : ('[' : Char) = '[')]
  obtain ⟨c, t, he, hws, hbr, hbc⟩ := dumpVal_head lvl x
  rw [dropWs_nlInd, dropWs_dumpVal, he, List.cons_append]
  dsimp only
  rw [if_neg hbr, ← List.cons_append, ← he]

theorem jparse_on_obj (f : Nat) (m : String × Json) (ms : List (String × Json)) (lvl cl : Nat)
    (w : List Char) :
    jparse (f + 1)
        ('{' :: (nlInd lvl ++ (dumpMember lvl m ++ (dumpObjTail lvl ms ++ (nlInd cl ++ ('}' :: w))))))
      = (jparseMembers f
          (dumpMember lvl m ++ (dumpObjTail lvl ms ++ (nlInd cl ++ ('}' :: w))))).map
          (fun p => (Json.obj p.1, p.2)) := by
  rcases m with ⟨k, v⟩
  have hm : dumpMember lvl (k, v) ++ (dumpObjTail lvl ms ++ (nlInd cl ++ ('}' :: w)))
      = '"' :: ((k.data.flatMap escChar ++ ['"']) ++
          (':' :: ' ' :: dumpVal lvl v ++ (dumpObjTail lvl ms ++ (nlInd cl ++ ('}' :: w))))) := by
    show (dumpStr k ++ ':' :: ' ' :: dumpVal lvl v) ++ _ = _
    simp [dumpStr, List.append_assoc]
  rw [jparse_step, dropWs_notws _ _ (by decide)]
  dsimp only
  rw [if_neg (show ('{' : Char) ≠ 'n' by decide), if_neg (show ('{' : Char) ≠ '"' by decide),
    if_neg (show ('{' : Char) ≠ '[' by decide), if_pos (rfl : ('{' : Char) = '{')]
  rw [dropWs_nlInd, hm, dropWs_notws _ _ (by decide)]
  dsimp only
  rw [if_neg (show ('"' : Char) ≠ '}' by decide), ← hm]

mutual

theorem rt_val : ∀ (j : Json) (lvl fuel : Nat) (w : List Char),
    (dumpVal lvl j).length < fuel →
    jparse fuel (dumpVal lvl j ++ w) = some (j, w)
  | Json.null, lvl, fuel, w, hf => by
      cases fuel with
      | zero => omega
      | succ f =>
          rw [show dumpVal lvl Json.null ++ w = 'n' :: 'u' :: 'l' :: 'l' :: w from rfl,
            jparse_step, dropWs_notws _ _ (by decide)]
          dsimp only
          rw [if_pos (rfl : ('n' : Char) = 'n')]
          rfl
  | Json.str s, lvl, fuel, w, hf => by
      cases fuel with
      | zero => omega
      | succ f =>
          have harg : dumpVal lvl (Json.str s) ++ w
              = '"' :: (s.data.flatMap escChar ++ '"' :: w) := by
            show dumpStr s ++ w = _
            simp [dumpStr, List.append_assoc]
          rw [harg, jparse_step, dropWs_notws _ _ (by decide)]
          dsimp only
          rw [if_neg (show ('"' : Char) ≠ 'n' by decide), if_pos (rfl : ('"' : Char) = '"'),
            readStr_escape_list]
          simp [string_mk_data]
  | Json.arr [], lvl, fuel, w, hf => by
      cases fuel with
      | zero => omega
      | succ f =>
          rw [show dumpVal lvl (Json.arr []) ++ w = '[' :: ']' :: w from rfl,
            jparse_step, dropWs_notws _ _ (by decide)]
          dsimp only
          rw [if_neg (show ('[' : Char) ≠ 'n' by decide),
            if_neg (show ('[' : Char) ≠ '"' by decide), if_pos (rfl : ('[' : Char) = '['),
            dropWs_notws _ _ (by decide)]
          dsimp only
          rw [if_pos (rfl : (']' : Char) = ']')]
  | Json.obj [], lvl, fuel, w, hf => by
      cases fuel with
      | zero => omega
      | succ f =>
          rw [show dumpVal lvl (Json.obj []) ++ w = '{' :: '}' :: w from rfl,
            jparse_step, dropWs_notws _ _ (by decide)]
          dsimp only
          rw [if_neg (show ('{' : Char) ≠ 'n' by decide),
            if_neg (show ('{' : Char) ≠ '"' by decide),
            if_neg (show ('{' : Char) ≠ '[' by decide), if_pos (rfl : ('{' : Char) = '{'),
            dropWs_notws _ _ (by decide)]
          dsimp only
          rw [if_pos (rfl : ('}' : Char) = '}')]
  | Json.arr (x :: xs), lvl, fuel, w, hf => by
      cases fuel with
      | zero => omega
      | succ f =>
          have harg : dumpVal lvl (Json.arr (x :: xs)) ++ w
              = '[' :: (nlInd (lvl + 1) ++ (dumpVal (lvl + 1) x ++
                  (dumpArrTail (lvl + 1) xs ++ (nlInd lvl ++ (']' :: w))))) := by
            show ('[' :: (nlInd (lvl + 1) ++ dumpVal (lvl + 1) x ++ dumpArrTail (lvl + 1) xs ++
              nlInd lvl ++ [']'])) ++ w = _
            simp [List.append_assoc]
          have hlen : (dumpVal lvl (Json.arr (x :: xs))).length
              = 1 + (nlInd (lvl + 1)).length + (dumpVal (lvl + 1) x).length +
                (dumpArrTail (lvl + 1) xs).length + (nlInd lvl).length + 1 := by
            show ('[' :: (nlInd (lvl + 1) ++ dumpVal (lvl + 1) x ++ dumpArrTail (lvl + 1) xs ++
              nlInd lvl ++ [']'])).length = _
            simp [List.length_append]
            omega
          rw [harg, jparse_on_arr,
            rt_items x xs (lvl + 1) lvl f w (by rw [hlen] at hf; omega)]
          rfl
  | Json.obj ((k, v) :: ms), lvl, fuel, w, hf => by
      cases fuel with
      | zero => omega
      | succ f =>
          have harg : dumpVal lvl (Json.obj ((k, v) :: ms)) ++ w
              = '{' :: (nlInd (lvl + 1) ++ (dumpMember (lvl + 1) (k, v) ++
                  (dumpObjTail (lvl + 1) ms ++ (nlInd lvl ++ ('}' :: w))))) := by
            show ('{' :: (nlInd (lvl + 1) ++ dumpMember (lvl + 1) (k, v) ++
              dumpObjTail (lvl + 1) ms ++ nlInd lvl ++ ['}'])) ++ w = _
            simp [List.append_assoc]
          have hlen : (dumpVal lvl (Json.obj ((k, v) :: ms))).length
              = 1 + (nlInd (lvl + 1)).length + (dumpMember (lvl + 1) (k, v)).length +
                (dumpObjTail (lvl + 1) ms).length + (nlInd lvl).length + 1 := by
            show ('{' :: (nlInd (lvl + 1) ++ dumpMember (lvl + 1) (k, v) ++
              dumpObjTail (lvl + 1) ms ++ nlInd lvl ++ ['}'])).length = _
            simp [List.length_append]
            omega
          rw [harg, jparse_on_obj,
            rt_members k v ms (lvl + 1) lvl f w (by rw [hlen] at hf; omega)]
          rfl
termination_by j lvl fuel w hf => sizeOf j

theorem rt_items : ∀ (x : Json) (xs : List Json) (lvl cl fuel : Nat) (w : List Char),
    (dumpVal lvl x).length + (dumpArrTail lvl xs).length + 1 < fuel →
    jparseItems fuel (dumpVal lvl x ++ (dumpArrTail lvl xs ++ (nlInd cl ++ (']' :: w))))
      = some (x :: xs, w)
  | x, [], lvl, cl, fuel, w, hf => by
      cases fuel with
      | zero => omega
      | succ f =>
          have hv := rt_val x lvl f (dumpArrTail lvl [] ++ (nlInd cl ++ (']' :: w)))
            (by omega)
          rw [jparseItems_step, hv]
          dsimp only
          rw [show dumpArrTail lvl ([] : List Json) ++ (nlInd cl ++ (']' :: w))
              = nlInd cl ++ (']' :: w) from rfl,
            dropWs_nlInd, dropWs_notws _ _ (by decide)]
          dsimp only
          rw [if_neg (show (']' : Char) ≠ ',' by decide), if_pos (rfl : (']' : Char) = ']')]
  | x, y :: ys, lvl, cl, fuel, w, hf => by
      cases fuel with
      | zero => omega
      | succ f =>
          have hlen1 : (dumpArrTail lvl (y :: ys)).length
              = 1 + (nlInd lvl).length + (dumpVal lvl y).length +
                (dumpArrTail lvl ys).length := by
            show (',' :: (nlInd lvl ++ dumpVal lvl y ++ dumpArrTail lvl ys)).length = _
            simp [List.length_append]
            omega
          have hv := rt_val x lvl f (dumpArrTail lvl (y :: ys) ++ (nlInd cl ++ (']' :: w)))
            (by omega)
          rw [jparseItems_step, hv]
          dsimp only
          have harg : dumpArrTail lvl (y :: ys) ++ (nlInd cl ++ (']' :: w))
              = ',' :: (nlInd lvl ++ (dumpVal lvl y ++
                  (dumpArrTail lvl ys ++ (nlInd cl ++ (']' :: w))))) := by
            show (',' :: (nlInd lvl ++ dumpVal lvl y ++ dumpArrTail lvl ys)) ++ _ = _
            simp [List.append_assoc]
          rw [harg, dropWs_notws _ _ (by decide)]
          dsimp only
          rw [if_pos (rfl : (',' : Char) = ','), jparseItems_ws,
            rt_items y ys lvl cl f w (by rw [hlen1] at hf; omega)]
termination_by x xs lvl cl fuel w hf => sizeOf x + sizeOf xs

theorem rt_members : ∀ (k : String) (v : Json) (ms : List (String × Json))
    (lvl cl fuel : Nat) (w : List Char),
    (dumpMember lvl (k, v)).length + (dumpObjTail lvl ms).length + 1 < fuel →
    jparseMembers fuel (dumpMember lvl (k, v) ++ (dumpObjTail lvl ms ++ (nlInd cl ++ ('}' :: w))))
      = some ((k, v) :: ms, w)
  | k, v, [], lvl, cl, fuel, w, hf => by
      cases fuel with
      | zero => omega
      | succ f =>
          have hmlen : (dumpMember lvl (k, v)).length
              = (dumpStr k).length + 2 + (dumpVal lvl v).length := by
            show (dumpStr k ++ ':' :: ' ' :: dumpVal lvl v).length = _
            simp [List.length_append]
            omega
          have hm : dumpMember lvl (k, v) ++ (dumpObjTail lvl ([] : List (String × Json)) ++
                (nlInd cl ++ ('}' :: w)))
              = '"' :: (k.data.flatMap escChar ++ '"' ::
                  (':' :: (' ' :: (dumpVal lvl v ++ (nlInd cl ++ ('}' :: w)))))) := by
            show (dumpStr k ++ ':' :: ' ' :: dumpVal lvl v) ++ _ = _
            simp [dumpStr, dumpObjTail, List.append_assoc]
          rw [jparseMembers_step, hm, dropWs_notws _ _ (by decide)]
          dsimp only
          rw [if_pos (rfl : ('"' : Char) = '"'), readStr_escape_list]
          dsimp only
          rw [dropWs_notws _ _ (by decide)]
          dsimp only
          rw [if_pos (rfl : (':' : Char) = ':'), jparse_space,
            rt_val v lvl f (nlInd cl ++ ('}' :: w)) (by rw [hmlen] at hf; omega)]
          dsimp only
          rw [dropWs_nlInd, dropWs_notws _ _ (by decide)]
          dsimp only
          rw [if_neg (show ('}' : Char) ≠ ',' by decide), if_pos (rfl : ('}' : Char) = '}'),
            string_mk_data]
  | k, v, (k2, v2) :: ms2, lvl, cl, fuel, w, hf => by
      cases fuel with
      | zero => omega
      | succ f =>
          have hmlen : (dumpMember lvl (k, v)).length
              = (dumpStr k).length + 2 + (dumpVal lvl v).length := by
            show (dumpStr k ++ ':' :: ' ' :: dumpVal lvl v).length = _
            simp [List.length_append]
            omega
          have hlen2 : (dumpObjTail lvl ((k2, v2) :: ms2)).length
              = 1 + (nlInd lvl).length + (dumpMember lvl (k2, v2)).length +
                (dumpObjTail lvl ms2).length := by
            show (',' :: (nlInd lvl ++ dumpMember lvl (k2, v2) ++ dumpObjTail lvl ms2)).length = _
            simp [List.length_append]
            omega
          have hm : dumpMember lvl (k, v) ++ (dumpObjTail lvl ((k2, v2) :: ms2) ++
                (nlInd cl ++ ('}' :: w)))
              = '"' :: (k.data.flatMap escChar ++ '"' ::
                  (':' :: (' ' :: (dumpVal lvl v ++ (dumpObjTail lvl ((k2, v2) :: ms2) ++
                    (nlInd cl ++ ('}' :: w))))))) := by
            show (dumpStr k ++ ':' :: ' ' :: dumpVal lvl v) ++ _ = _
            simp [dumpStr, List.append_assoc]
          rw [jparseMembers_step, hm, dropWs_notws _ _ (by decide)]
          dsimp only
          rw [if_pos (rfl : ('"' : Char) = '"'), readStr_escape_list]
          dsimp only
          rw [dropWs_notws _ _ (by decide)]
          dsimp only
          rw [if_pos (rfl : (':' : Char) = ':'), jparse_space,
            rt_val v lvl f (dumpObjTail lvl ((k2, v2) :: ms2) ++ (nlInd cl ++ ('}' :: w)))
              (by rw [hmlen] at hf; omega)]
          dsimp only
          have harg : dumpObjTail lvl ((k2, v2) :: ms2) ++ (nlInd cl ++ ('}' :: w))
              = ',' :: (nlInd lvl ++ (dumpMember lvl (k2, v2) ++
                  (dumpObjTail lvl ms2 ++ (nlInd cl ++ ('}' :: w))))) := by
            show (',' :: (nlInd lvl ++ dumpMember lvl (k2, v2) ++ dumpObjTail lvl ms2)) ++ _ = _
            simp [List.append_assoc]
          rw [harg, dropWs_notws _ _ (by decide)]
          dsimp only
          rw [if_pos (rfl : (',' : Char) = ','), jparseMembers_ws,
            rt_members k2 v2 ms2 lvl cl f w (by rw [hlen2] at hf; omega)]
termination_by k v ms lvl cl fuel w hf => sizeOf v + sizeOf ms

end

/-! ### The round trip at the dataset level -/

theorem json_to_comment_inv (c : Comment) :
    json_to_comment (comment_to_json c) = some c := by
  rcases c with ⟨u, r, v⟩
  cases u <;> cases r <;> cases v <;> rfl

theorem optMapList_map {α β : Type} (f : α → Option β) (g : β → α) (l : List β)
    (h : ∀ x, f (g x) = some x) : optMapList f (l.map g) = some l := by
  induction l with
  | nil => rfl
  | cons x xs ih => simp [optMapList, h, ih]

theorem json_to_comments_inv (cs : List Comment) :
    json_to_comments (comments_to_json cs) = some cs := by
  show optMapList json_to_comment (cs.map comment_to_json) = some cs
  exact optMapList_map _ _ _ json_to_comment_inv

theorem json_to_dataset_inv (d : List (String × List Comment)) :
    json_to_dataset (dataset_to_json d) = some d := by
  show optMapList _ (d.map (fun p => (p.1, comments_to_json p.2))) = some d
  apply optMapList_map
  intro p
  simp [json_to_comments_inv]

theorem json_loads_dumps (d : List (String × List Comment)) :
    json_loads (save_full_dataset d) = some (dataset_to_json d) := by
  unfold json_loads save_full_dataset json_dumps
  have hv := rt_val (dataset_to_json d) 0 ((dumpVal 0 (dataset_to_json d)).length + 1) []
    (by omega)
  rw [List.append_nil] at hv
  show (match jparse ((dumpVal 0 (dataset_to_json d)).length + 1)
      (dumpVal 0 (dataset_to_json d)) with
    | some (j, rest) => if dropWs rest = [] then some j else none
    | none => none) = _
  rw [hv]
  rfl

/-- Claim C4: saving a Dataset as the aggregate JSON snapshot and loading it
back yields a Dataset equal to the original — the same game names in the
same insertion order, each comment list equal element by element and field
by field; the round trip holds for every string value, so non-ASCII text is
preserved verbatim. -/
theorem save_load_roundtrip (d : List (String × List Comment)) :
    load_local_dataset (save_full_dataset d) = dataset_to_json d ∧
    json_to_dataset (load_local_dataset (save_full_dataset d)) = some d := by
  have hparse := json_loads_dumps d
  constructor
  · unfold load_local_dataset
    rw [hparse]
  · unfold load_local_dataset
    rw [hparse]
    exact json_to_dataset_inv d

/-! ### Claims about the retriever -/

theorem retrieve_comments_loop_spec (isalnum : Char → Bool) (lookup_id : String → Option Int)
    (lookup_comments : Int → Nat → List Comment) (mc : Nat) (dir : String)
    (games : List String) :
    retrieve_comments_loop isalnum lookup_id lookup_comments mc dir games =
      (games.filterMap (fun g => (lookup_id g).map (fun i => (g, lookup_comments i mc))),
       games.filterMap (fun g => (lookup_id g).map (fun i =>
         (per_game_path isalnum dir g, json_dumps (comments_to_json (lookup_comments i mc)))))) := by
  induction games with
  | nil => rfl
  | cons g gs ih =>
      cases hE : lookup_id g with
      | none => simp [retrieve_comments_loop, hE, ih, List.filterMap_cons]
      | some i => simp [retrieve_comments_loop, hE, ih, List.filterMap_cons, save_game_comments]

/-- Claim C7: the returned Dataset has an entry exactly for the names whose
id lookup succeeded, in input order; a name whose lookup is absent gets no
dataset entry and no per-game file; the aggregate snapshot is written once,
after all names; and on a single unknown name the Dataset is empty while the
aggregate file holds the empty JSON object. -/
theorem retrieve_comments_spec (isalnum : Char → Bool) (lookup_id : String → Option Int)
    (lookup_comments : Int → Nat → List Comment) (games : List String)
    (mc : Nat) (dir : String) :
    retrieve_comments isalnum lookup_id lookup_comments games mc dir =
      (games.filterMap (fun g => (lookup_id g).map (fun i => (g, lookup_comments i mc))),
       games.filterMap (fun g => (lookup_id g).map (fun i =>
         (per_game_path isalnum dir g, json_dumps (comments_to_json (lookup_comments i mc))))) ++
       [(full_dataset_path dir, json_dumps (dataset_to_json
         (games.filterMap (fun g => (lookup_id g).map (fun i => (g, lookup_comments i mc))))))]) ∧
    (∀ g, lookup_id g = none →
      retrieve_comments isalnum lookup_id lookup_comments [g] mc dir =
        ([], [(full_dataset_path dir, json_dumps (Json.obj []))])) ∧
    json_dumps (Json.obj []) = String.mk ['{', '}'] := by
  refine ⟨?_, ?_, rfl⟩
  · unfold retrieve_comments
    rw [retrieve_comments_loop_spec]
  · intro g hg
    unfold retrieve_comments
    rw [retrieve_comments_loop_spec]
    simp [hg, List.filterMap_cons, dataset_to_json]

/-- Witness for claim C7: a single unknown name yields the empty dataset and
only the aggregate write. -/
theorem retrieve_comments_spec_witness :
    retrieve_comments Char.isAlphanum (fun _ => none) (fun _ _ => []) ["Unknown Game Xyz123"] 10
        "data/raw_comments" =
      ([], [(full_dataset_path "data/raw_comments", json_dumps (Json.obj []))]) :=
  ((retrieve_comments_spec Char.isAlphanum (fun _ => none) (fun _ _ => [])
      ["Unknown Game Xyz123"] 10 "data/raw_comments").2.1) "Unknown Game Xyz123" rfl

end BoardGames
